import Mathlib

/-!
Shallow embedding of the core state machines and numeric pipeline of
`src/sketch.js` ("THE MATH OF TIME", a p5.js generative clock), together
with theorems settling the specification claims about it.

Numbers manipulated by the JavaScript code are modelled as exact rationals
(`ℚ`) where the code only uses field operations, comparisons, `Math.floor`
and truncation, and as real numbers (`ℝ`) where square roots and inverse
trigonometric functions appear (geometry of the hour shape and the marker
angles).  JavaScript's `x | 0` (ToInt32) is modelled with its 2^32
wrap-around.  Sources of nondeterminism (`millis()`, `deltaTime`,
`random()`) are passed in as explicit oracle arguments.
-/

namespace MathOfTime

/-- Truncation toward zero, as performed by JavaScript when converting a
number to an integer (`Math.trunc`, and the first step of ToInt32). -/
def ratTrunc (q : ℚ) : ℤ :=
  if 0 ≤ q then ⌊q⌋ else ⌈q⌉

/-- JavaScript's `x | 0` (ToInt32): truncate toward zero, then wrap into
the signed 32-bit range. -/
def jsToInt32 (q : ℚ) : ℤ :=
  (ratTrunc q + 2 ^ 31) % 2 ^ 32 - 2 ^ 31

/-- JavaScript's `%` on numbers: `x - y * trunc(x / y)`. -/
def jsFmod (x y : ℚ) : ℚ :=
  x - y * (ratTrunc (x / y) : ℚ)

/-- p5.js `map(v, lo, hi, a, b)` (no clamping, the default). -/
def p5map (v lo hi a b : ℚ) : ℚ :=
  a + (b - a) * ((v - lo) / (hi - lo))

/-- p5.js `lerp(a, b, f)`; used to state the claims' ramp formulas. -/
def lerpQ (a b f : ℚ) : ℚ :=
  a + (b - a) * f

/-! ## PhaseScheduler: the five-window AUTO alpha schedule

`sketch.js`, `draw()` lines 288–312: `cycle = fadeTimer % 23.0` and a
five-branch `if` chain assigning `geoAlpha` and `triContentAlpha`. -/

/-- `geoAlpha` computed by the AUTO branch of `draw()` as a function of the
cycle time. -/
def autoGeoAlpha (c : ℚ) : ℤ :=
  if c < 3 / 2 then ⌊p5map (c / (3 / 2)) 0 1 255 0⌋
  else if c < 23 / 2 then 0
  else if c < 13 then 0
  else if c < 29 / 2 then ⌊p5map ((c - 13) / (3 / 2)) 0 1 0 255⌋
  else 255

/-- `triContentAlpha` computed by the AUTO branch of `draw()` as a function
of the cycle time. -/
def autoTriAlpha (c : ℚ) : ℤ :=
  if c < 3 / 2 then 0
  else if c < 23 / 2 then 255
  else if c < 13 then ⌊p5map ((c - 23 / 2) / (3 / 2)) 0 1 255 0⌋
  else if c < 29 / 2 then 0
  else 0

/-- Real-valued p5.js `map`, for the continuity statements. -/
noncomputable def p5mapR (v lo hi a b : ℝ) : ℝ :=
  a + (b - a) * ((v - lo) / (hi - lo))

/-- The AUTO `geoAlpha` schedule of `draw()` with the final `Math.floor`
quantization removed: the underlying real-valued linear ramp. -/
noncomputable def rampGeoR (c : ℝ) : ℝ :=
  if c < 3 / 2 then p5mapR (c / (3 / 2)) 0 1 255 0
  else if c < 23 / 2 then 0
  else if c < 13 then 0
  else if c < 29 / 2 then p5mapR ((c - 13) / (3 / 2)) 0 1 0 255
  else 255

/-- The AUTO `triContentAlpha` schedule of `draw()` with the final
`Math.floor` quantization removed. -/
noncomputable def rampTriR (c : ℝ) : ℝ :=
  if c < 3 / 2 then 0
  else if c < 23 / 2 then 255
  else if c < 13 then p5mapR ((c - 23 / 2) / (3 / 2)) 0 1 255 0
  else if c < 29 / 2 then 0
  else 0

/-! ## ViewportTransform

`sketch.js` constants (lines 19–28) and `draw()` lines 329–341. -/

def DESIGN_W : ℚ := 1080

def CONTENT_TOP_BASE : ℚ := -180

def CONTENT_BOTTOM_BASE : ℚ := 1120

def CONTENT_PAD : ℚ := 80

def CONTENT_MIN_Y : ℚ := CONTENT_TOP_BASE - CONTENT_PAD

def CONTENT_MAX_Y : ℚ := CONTENT_BOTTOM_BASE + CONTENT_PAD

/-- `CONTENT_H = CONTENT_MAX_Y - CONTENT_MIN_Y` in `draw()`. -/
def CONTENT_H : ℚ := CONTENT_MAX_Y - CONTENT_MIN_Y

/-- `sc = Math.min(width / DESIGN_W, height / CONTENT_H)`. -/
def viewScale (w h : ℚ) : ℚ :=
  min (w / DESIGN_W) (h / CONTENT_H)

/-- `offX = (width - DESIGN_W * sc) / 2`. -/
def viewOffX (w h : ℚ) : ℚ :=
  (w - DESIGN_W * viewScale w h) / 2

/-- `offY = (height - CONTENT_H * sc) / 2`. -/
def viewOffY (w h : ℚ) : ℚ :=
  (h - CONTENT_H * viewScale w h) / 2

/-! ## parseTimeString and its JavaScript string primitives

`sketch.js` lines 132–146.  Strings are modelled as `List Char`. -/

/-- JavaScript whitespace recognized by `String.prototype.trim`
(the characters relevant to this program). -/
def isJsSpace (c : Char) : Bool :=
  c = ' ' ∨ c = '\t' ∨ c = '\n' ∨ c = '\r' ∨ c = '\x0b' ∨ c = '\x0c'

/-- `str.trim()`. -/
def jsTrim (l : List Char) : List Char :=
  ((l.dropWhile isJsSpace).reverse.dropWhile isJsSpace).reverse

/-- Numeric value of a list of decimal digit characters. -/
def digitsVal (l : List Char) : ℤ :=
  l.foldl (fun acc c => acc * 10 + ((c.toNat : ℤ) - ('0'.toNat : ℤ))) 0

/-- JavaScript `parseInt(s, 10)`: skip leading whitespace, read an optional
sign and then the longest prefix of decimal digits; `NaN` (here `none`)
when no digit is found. -/
def jsParseInt (l : List Char) : Option ℤ :=
  match l.dropWhile isJsSpace with
  | '-' :: rest =>
      let ds := rest.takeWhile Char.isDigit
      if ds = [] then none else some (-(digitsVal ds))
  | '+' :: rest =>
      let ds := rest.takeWhile Char.isDigit
      if ds = [] then none else some (digitsVal ds)
  | other =>
      let ds := other.takeWhile Char.isDigit
      if ds = [] then none else some (digitsVal ds)

/-- `parseTimeString(str)` from `sketch.js`: split the trimmed string on
`:`, require 2 or 3 parts, `parseInt` each (seconds default 0), reject
`NaN`s and out-of-range components. -/
def parseTimeString (l : List Char) : Option (ℤ × ℤ × ℤ) :=
  if ((jsTrim l).splitOn ':').length < 2 ∨ 3 < ((jsTrim l).splitOn ':').length then none
  else
    match jsParseInt (((jsTrim l).splitOn ':').getD 0 []),
        jsParseInt (((jsTrim l).splitOn ':').getD 1 []),
        (if ((jsTrim l).splitOn ':').length = 3
          then jsParseInt (((jsTrim l).splitOn ':').getD 2 [])
          else some 0) with
    | some h, some m, some s =>
        if h < 0 ∨ 23 < h then none
        else if m < 0 ∨ 59 < m then none
        else if s < 0 ∨ 59 < s then none
        else some (h, m, s)
    | _, _, _ => none

/-! ## Global mutable state of the sketch

All the `let` globals of `sketch.js` that the core state machines read or
write, gathered into one record.  `millis()`, `deltaTime` and `random()`
are supplied as explicit arguments to the transition functions. -/

inductive RoulS
  | off
  | spin
  | brake
deriving DecidableEq

inductive Phase
  | auto
  | geo
  | tri
deriving DecidableEq

structure AppState where
  useLiveTime : Bool
  manualH : ℤ
  manualM : ℤ
  manualS : ℤ
  typingMode : Bool
  timeInput : List Char
  inputHintTimer : ℚ
  rouletteState : RoulS
  rouletteNextAt : ℚ
  rouletteInterval : ℚ
  phaseMode : Phase
  manualPhaseEnabled : Bool
  fadeTimer : ℚ
  geoAlpha : ℤ
  triContentAlpha : ℤ
deriving DecidableEq

/-- The initial values of the globals in `sketch.js` (lines 36–71). -/
def initState : AppState where
  useLiveTime := true
  manualH := 12
  manualM := 0
  manualS := 0
  typingMode := false
  timeInput := []
  inputHintTimer := 0
  rouletteState := .off
  rouletteNextAt := 0
  rouletteInterval := 90
  phaseMode := .auto
  manualPhaseEnabled := false
  fadeTimer := 0
  geoAlpha := 255
  triContentAlpha := 0

def ROULETTE_FAST : ℚ := 90

def ROULETTE_SLOW_STOP : ℚ := 950

def ROULETTE_BRAKE_MULT : ℚ := 118 / 100

/-- `clampInt(v, a, b) = Math.max(a, Math.min(b, v | 0))`. -/
def clampInt (v : ℚ) (a b : ℤ) : ℤ :=
  max a (min b (jsToInt32 v))

/-- `setManualTime(h, m, s)` from `sketch.js` lines 118–123. -/
def setManualTime (h m s : ℚ) (st : AppState) : AppState :=
  { st with
    manualH := clampInt h 0 23
    manualM := clampInt m 0 59
    manualS := clampInt s 0 59
    useLiveTime := false }

/-- `setRandomTime()` with the three `random(0, ..)` draws passed in as
oracle arguments (`rh ∈ [0,24)`, `rm, rs ∈ [0,60)` at call sites). -/
def setRandomTime (rh rm rs : ℚ) (st : AppState) : AppState :=
  setManualTime ((⌊rh⌋ : ℤ) : ℚ) ((⌊rm⌋ : ℤ) : ℚ) ((⌊rs⌋ : ℤ) : ℚ) st

/-- `rouletteStart()` (`sketch.js` lines 152–161); `now` is `millis()`. -/
def rouletteStart (now : ℚ) (st : AppState) : AppState :=
  { st with
    typingMode := false
    timeInput := []
    inputHintTimer := 0
    useLiveTime := false
    rouletteState := .spin
    rouletteInterval := ROULETTE_FAST
    rouletteNextAt := now }

/-- `rouletteBeginBrake()` (`sketch.js` lines 163–166). -/
def rouletteBeginBrake (now : ℚ) (st : AppState) : AppState :=
  { st with
    rouletteState := .brake
    rouletteNextAt := now + st.rouletteInterval }

/-- `rouletteStop()` (`sketch.js` lines 168–170). -/
def rouletteStop (st : AppState) : AppState :=
  { st with rouletteState := .off }

/-- A key event delivered to `keyPressed()`: a printable character, or one
of the special key codes the handler tests for. -/
inductive KeyEv
  | ch (c : Char)
  | escape
  | enter
  | backspace

/-- `keyPressed()` from `sketch.js` lines 175–246, with the branch order of
the source preserved (note that `'1'`/`'2'`/`'3'` are intercepted by the
phase-control branch even while typing). -/
def keyPressed (ev : KeyEv) (now : ℚ) (st : AppState) : AppState :=
  match ev with
  | .ch c =>
      if c = 'r' ∨ c = 'R' then
        { rouletteStop st with
          typingMode := false
          timeInput := []
          useLiveTime := true
          manualPhaseEnabled := false
          phaseMode := .auto }
      else if c = 'z' ∨ c = 'Z' then
        if st.rouletteState = .off then rouletteStart now st
        else if st.rouletteState = .spin then rouletteBeginBrake now st
        else rouletteStop st
      else if c = ' ' then
        if st.manualPhaseEnabled then
          { st with manualPhaseEnabled := false, phaseMode := .auto }
        else
          { st with manualPhaseEnabled := true, phaseMode := .geo }
      else if c = '1' then { st with manualPhaseEnabled := true, phaseMode := .geo }
      else if c = '2' then { st with manualPhaseEnabled := true, phaseMode := .tri }
      else if c = '3' then { st with manualPhaseEnabled := false, phaseMode := .auto }
      else if c = 't' ∨ c = 'T' then
        let st1 := rouletteStop st
        if st1.typingMode then { st1 with typingMode := false }
        else { st1 with typingMode := true, timeInput := [], inputHintTimer := now }
      else if st.typingMode then
        if ('0' ≤ c ∧ c ≤ '9') ∨ c = ':' then
          if st.timeInput.length < 8 then { st with timeInput := st.timeInput ++ [c] }
          else st
        else st
      else st
  | .escape =>
      if st.typingMode then { st with typingMode := false, timeInput := [] } else st
  | .enter =>
      if st.typingMode then
        match parseTimeString st.timeInput with
        | some (h, m, s) =>
            { setManualTime (h : ℚ) (m : ℚ) (s : ℚ) (rouletteStop st) with
              typingMode := false
              timeInput := [] }
        | none => { st with inputHintTimer := now }
      else st
  | .backspace =>
      if st.typingMode then { st with timeInput := st.timeInput.dropLast } else st

/-- The roulette tick section of `draw()` (`sketch.js` lines 272–286);
`now` is `millis()` and `rh rm rs` are the `random()` draws a tick would
consume. -/
def rouletteFrame (now rh rm rs : ℚ) (st : AppState) : AppState :=
  if st.rouletteState ≠ .off ∧ st.rouletteNextAt ≤ now then
    let sr := setRandomTime rh rm rs st
    if sr.rouletteState = .spin then
      { sr with rouletteInterval := ROULETTE_FAST, rouletteNextAt := now + ROULETTE_FAST }
    else if sr.rouletteState = .brake then
      let ni := sr.rouletteInterval * ROULETTE_BRAKE_MULT
      let sb := { sr with rouletteInterval := ni, rouletteNextAt := now + ni }
      if ROULETTE_SLOW_STOP ≤ ni then rouletteStop sb else sb
    else sr
  else st

/-- The phase section of `draw()` (`sketch.js` lines 288–324): compute the
cycle time from `fadeTimer` and set the two alphas (or reset a stale
manual-phase flag). -/
def phaseFrame (st : AppState) : AppState :=
  if ¬st.manualPhaseEnabled ∧ st.phaseMode = .auto then
    { st with
      geoAlpha := autoGeoAlpha (jsFmod st.fadeTimer 23)
      triContentAlpha := autoTriAlpha (jsFmod st.fadeTimer 23) }
  else if st.phaseMode = .tri then
    { st with geoAlpha := 0, triContentAlpha := 255 }
  else if st.phaseMode = .geo then
    { st with geoAlpha := 255, triContentAlpha := 0 }
  else
    { st with manualPhaseEnabled := false, phaseMode := .auto }

/-- One frame of `draw()`'s state updates in source order: `fadeTimer += dt`
(line 269), the roulette tick, then the phase section. -/
def frameStep (now dt rh rm rs : ℚ) (st : AppState) : AppState :=
  phaseFrame (rouletteFrame now rh rm rs { st with fadeTimer := st.fadeTimer + dt })

/-! ## GeometryEngine: hour marker on the shape perimeter

`sketch.js` lines 394–397 (time derivation) and 444–463 (perimeter walk).
The four deformed quadrilateral vertices are taken as a parameter
`pts : Fin 4 → ℝ × ℝ`. -/

/-- Truncation toward zero on `ℝ` (JavaScript number-to-integer). -/
noncomputable def truncR (x : ℝ) : ℤ :=
  if 0 ≤ x then ⌊x⌋ else ⌈x⌉

/-- JavaScript `%` on real-valued quantities. -/
noncomputable def jsFmodR (x y : ℝ) : ℝ :=
  x - y * (truncR (x / y) : ℝ)

/-- p5.js `dist(a.x, a.y, b.x, b.y)`. -/
noncomputable def dist2 (a b : ℝ × ℝ) : ℝ :=
  Real.sqrt ((b.1 - a.1) ^ 2 + (b.2 - a.2) ^ 2)

/-- p5.js `p5.Vector.lerp(a, b, f)`, componentwise. -/
def lerpP (a b : ℝ × ℝ) (f : ℝ) : ℝ × ℝ :=
  (a.1 + (b.1 - a.1) * f, a.2 + (b.2 - a.2) * f)

/-- Length of edge `i` of the quadrilateral, `dist(pts[i], pts[(i+1) % 4])`. -/
noncomputable def edgeLen (pts : Fin 4 → ℝ × ℝ) (i : Fin 4) : ℝ :=
  dist2 (pts i) (pts (i + 1))

/-- `perim`: the sum of the four edge lengths (`sketch.js` lines 444–449). -/
noncomputable def perimOf (pts : Fin 4 → ℝ × ℝ) : ℝ :=
  edgeLen pts 0 + edgeLen pts 1 + edgeLen pts 2 + edgeLen pts 3

/-- Arclength of the boundary from vertex 0 up to vertex `k` (the value of
`lenSoFar` when the walk reaches edge `k`). -/
noncomputable def cumLen (pts : Fin 4 → ℝ × ℝ) : Fin 4 → ℝ
  | ⟨0, _⟩ => 0
  | ⟨1, _⟩ => edgeLen pts 0
  | ⟨2, _⟩ => edgeLen pts 0 + edgeLen pts 1
  | ⟨3, _⟩ => edgeLen pts 0 + edgeLen pts 1 + edgeLen pts 2

/-- The `for` loop of `sketch.js` lines 452–463: walk the edges in order,
breaking at the first edge whose accumulated span reaches `aH` and
interpolating inside it; `(0, 0)` (the initialization of `hourMarker`)
if the loop falls through. -/
noncomputable def walkEdges (pts : Fin 4 → ℝ × ℝ) (aH : ℝ) :
    List (Fin 4) → ℝ → ℝ × ℝ
  | [], _ => (0, 0)
  | i :: rest, lenSoFar =>
      let d := edgeLen pts i
      if aH ≤ lenSoFar + d then lerpP (pts i) (pts (i + 1)) ((aH - lenSoFar) / d)
      else walkEdges pts aH rest (lenSoFar + d)

/-- `aH = map(H12 % 12, 0, 12, 0, perim)` (`sketch.js` line 451). -/
noncomputable def aHOf (pts : Fin 4 → ℝ × ℝ) (H12 : ℝ) : ℝ :=
  p5mapR (jsFmodR H12 12) 0 12 0 (perimOf pts)

/-- `hourMarker` as computed by the walk loop. -/
noncomputable def hourMarkerOf (pts : Fin 4 → ℝ × ℝ) (H12 : ℝ) : ℝ × ℝ :=
  walkEdges pts (aHOf pts H12) [0, 1, 2, 3] 0

/-- `M = mNow + S / 60.0` (`sketch.js` line 395). -/
noncomputable def minuteFloat (m s : ℝ) : ℝ :=
  m + s / 60

/-- `H12 = (hNow % 12) + M / 60.0` (`sketch.js` line 396); `hNow` is an
integer hour. -/
noncomputable def hour12Float (h : ℤ) (m s : ℝ) : ℝ :=
  ((h % 12 : ℤ) : ℝ) + minuteFloat m s / 60

/-! ## GeometryEngine: angles at the three markers

`angleAtPoint` from `sketch.js` lines 103–112, over the Euclidean plane. -/

/-- The plane the markers live in. -/
abbrev E2 : Type := EuclideanSpace ℝ (Fin 2)

/-- Build a point of the plane from its two coordinates. -/
noncomputable def mkE2 (x y : ℝ) : E2 :=
  (WithLp.equiv 2 (Fin 2 → ℝ)).symm ![x, y]

/-- p5.js `constrain(v, lo, hi) = Math.max(Math.min(v, hi), lo)`. -/
noncomputable def p5constrain (v lo hi : ℝ) : ℝ :=
  max (min v hi) lo

/-- `angleAtPoint(P, A, B)` from `sketch.js`: 0 when a ray is degenerate,
otherwise the inverse cosine (in degrees) of the clamped dot product of the
two normalized rays. -/
noncomputable def angleAtPoint (P A B : E2) : ℝ :=
  if ‖A - P‖ = 0 ∨ ‖B - P‖ = 0 then 0
  else
    Real.arccos
        (p5constrain ((inner (‖A - P‖⁻¹ • (A - P)) (‖B - P‖⁻¹ • (B - P)) : ℝ)) (-1) 1) *
      (180 / Real.pi)

/-- Twice the signed area of the triangle `P A B`; nonzero exactly when the
three points are not collinear. -/
noncomputable def crossZ (P A B : E2) : ℝ :=
  (A 0 - P 0) * (B 1 - P 1) - (A 1 - P 1) * (B 0 - P 0)

/-- States reachable from the sketch's initial state through key events and
frame updates. -/
inductive Reachable : AppState → Prop
  | init : Reachable initState
  | key {s : AppState} (ev : KeyEv) (now : ℚ) : Reachable s → Reachable (keyPressed ev now s)
  | frame {s : AppState} (now dt rh rm rs : ℚ) :
      Reachable s → Reachable (frameStep now dt rh rm rs s)

/-! ## Helper lemmas -/

theorem ratTrunc_intCast (n : ℤ) : ratTrunc (n : ℚ) = n := by
  unfold ratTrunc
  split_ifs with h
  · exact Int.floor_intCast n
  · exact Int.ceil_intCast n

theorem jsToInt32_eq_ratTrunc {q : ℚ} (h1 : -(2 ^ 31) < q) (h2 : q < 2 ^ 31) :
    jsToInt32 q = ratTrunc q := by
  have hlb : -(2 ^ 31) < ratTrunc q := by
    unfold ratTrunc
    split_ifs with h0
    · have : (0 : ℤ) ≤ ⌊q⌋ := Int.floor_nonneg.mpr h0
      omega
    · have hq : q ≤ (⌈q⌉ : ℚ) := Int.le_ceil q
      have : -((2 : ℚ) ^ 31) < (⌈q⌉ : ℚ) := lt_of_lt_of_le h1 hq
      exact_mod_cast this
  have hub : ratTrunc q < 2 ^ 31 := by
    unfold ratTrunc
    split_ifs with h0
    · have hq : (⌊q⌋ : ℚ) ≤ q := Int.floor_le q
      have : (⌊q⌋ : ℚ) < (2 : ℚ) ^ 31 := lt_of_le_of_lt hq h2
      exact_mod_cast this
    · have : ⌈q⌉ ≤ 0 := Int.ceil_le.mpr (by push_neg at h0; exact_mod_cast h0.le)
      omega
  unfold jsToInt32
  rw [Int.emod_eq_of_lt (by omega) (by omega)]
  omega

/-! ## C3: viewport transform -/

/-- C3: every frame the viewport transform uses the uniform scale
`min(viewportW / designWidth, viewportH / contentHeight)` with
`contentHeight = contentMaxY - contentMinY`, centers with
`offsetX = (viewportW - designWidth * scale) / 2` and
`offsetY = (viewportH - contentHeight * scale) / 2`, and for a viewport of
exactly `designWidth × contentHeight = 1080 × 1460` the scale is 1 and both
offsets vanish. -/
theorem viewport_transform_correct :
    (∀ w h : ℚ,
      viewScale w h = min (w / 1080) (h / (CONTENT_MAX_Y - CONTENT_MIN_Y)) ∧
      viewOffX w h = (w - 1080 * viewScale w h) / 2 ∧
      viewOffY w h = (h - (CONTENT_MAX_Y - CONTENT_MIN_Y) * viewScale w h) / 2) ∧
    DESIGN_W = 1080 ∧ CONTENT_H = 1460 ∧
    viewScale 1080 1460 = 1 ∧ viewOffX 1080 1460 = 0 ∧ viewOffY 1080 1460 = 0 := by
  refine ⟨fun w h => ⟨rfl, rfl, rfl⟩, rfl, ?_, ?_, ?_, ?_⟩ <;>
    norm_num [viewScale, viewOffX, viewOffY, CONTENT_H, CONTENT_MAX_Y, CONTENT_MIN_Y,
      DESIGN_W, CONTENT_TOP_BASE, CONTENT_BOTTOM_BASE, CONTENT_PAD]

/-! ## C5: setManualTime clamping -/

/-- C5 counterexample: `setManualTime` converts with JavaScript's `| 0`,
which wraps modulo 2^32, so the out-of-range hour `2^32 + 5` is stored as
`5` instead of being clamped to the nearest boundary `23`. -/
theorem setManualTime_wrap_cex :
    (23 : ℚ) < (2 : ℚ) ^ 32 + 5 ∧
    (setManualTime ((2 : ℚ) ^ 32 + 5) 0 0 initState).manualH = 5 ∧
    (setManualTime ((2 : ℚ) ^ 32 + 5) 0 0 initState).manualH ≠ 23 := by
  refine ⟨by norm_num, ?_, ?_⟩ <;>
    norm_num [setManualTime, clampInt, jsToInt32, ratTrunc, initState]

/-- C5 (amended): for every input `(h, m, s)` with each component of
magnitude below 2^31 (where `| 0` is plain truncation toward zero),
`setManualTime` truncates each component to an integer, clamps `h` into
`[0, 23]` and `m`, `s` into `[0, 59]` — out-of-range values going to the
nearest boundary — stores the results and switches the time mode to
MANUAL; and for every already-valid integer triple the read-back after
`setManualTime` is exact with mode MANUAL. -/
theorem setManualTime_clamps :
    (∀ (h m s : ℚ) (st : AppState),
      -(2 ^ 31) < h → h < 2 ^ 31 → -(2 ^ 31) < m → m < 2 ^ 31 →
      -(2 ^ 31) < s → s < 2 ^ 31 →
      (setManualTime h m s st).manualH = max 0 (min 23 (ratTrunc h)) ∧
      (setManualTime h m s st).manualM = max 0 (min 59 (ratTrunc m)) ∧
      (setManualTime h m s st).manualS = max 0 (min 59 (ratTrunc s)) ∧
      (setManualTime h m s st).useLiveTime = false) ∧
    (∀ (hi mi si : ℤ) (st : AppState),
      0 ≤ hi → hi ≤ 23 → 0 ≤ mi → mi ≤ 59 → 0 ≤ si → si ≤ 59 →
      (setManualTime (hi : ℚ) (mi : ℚ) (si : ℚ) st).manualH = hi ∧
      (setManualTime (hi : ℚ) (mi : ℚ) (si : ℚ) st).manualM = mi ∧
      (setManualTime (hi : ℚ) (mi : ℚ) (si : ℚ) st).manualS = si ∧
      (setManualTime (hi : ℚ) (mi : ℚ) (si : ℚ) st).useLiveTime = false) := by
  constructor
  · intro h m s st hh1 hh2 hm1 hm2 hs1 hs2
    refine ⟨?_, ?_, ?_, rfl⟩ <;>
      simp [setManualTime, clampInt, jsToInt32_eq_ratTrunc, *]
  · intro hi mi si st hh1 hh2 hm1 hm2 hs1 hs2
    have hcast : ∀ n : ℤ, -23 ≤ n → n ≤ 59 → jsToInt32 (n : ℚ) = n := by
      intro n hn1 hn2
      have b1 : -((2 : ℤ) ^ 31) < n := by omega
      have b2 : n < (2 : ℤ) ^ 31 := by omega
      rw [jsToInt32_eq_ratTrunc (by exact_mod_cast b1) (by exact_mod_cast b2)]
      exact ratTrunc_intCast n
    have e1 := hcast hi (by omega) (by omega)
    have e2 := hcast mi (by omega) (by omega)
    have e3 := hcast si (by omega) (by omega)
    refine ⟨?_, ?_, ?_, rfl⟩ <;>
      · simp only [setManualTime, clampInt, e1, e2, e3]
        omega

/-- C5 witness: concrete clamping (`h = 25.7 → 23`, `m = -3 → 0`,
`s = 12.5 → 12`) and concrete exact read-back of `(9, 5, 30)`. -/
theorem setManualTime_clamps_witness :
    ((setManualTime (257 / 10) (-3) (25 / 2) initState).manualH = max 0 (min 23 (ratTrunc (257 / 10))) ∧
     (setManualTime (257 / 10) (-3) (25 / 2) initState).manualM = max 0 (min 59 (ratTrunc (-3))) ∧
     (setManualTime (257 / 10) (-3) (25 / 2) initState).manualS = max 0 (min 59 (ratTrunc (25 / 2))) ∧
     (setManualTime (257 / 10) (-3) (25 / 2) initState).useLiveTime = false) ∧
    ((setManualTime ((9 : ℤ) : ℚ) ((5 : ℤ) : ℚ) ((30 : ℤ) : ℚ) initState).manualH = 9 ∧
     (setManualTime ((9 : ℤ) : ℚ) ((5 : ℤ) : ℚ) ((30 : ℤ) : ℚ) initState).manualM = 5 ∧
     (setManualTime ((9 : ℤ) : ℚ) ((5 : ℤ) : ℚ) ((30 : ℤ) : ℚ) initState).manualS = 30 ∧
     (setManualTime ((9 : ℤ) : ℚ) ((5 : ℤ) : ℚ) ((30 : ℤ) : ℚ) initState).useLiveTime = false) :=
  ⟨setManualTime_clamps.1 (257 / 10) (-3) (25 / 2) initState
      (by norm_num) (by norm_num) (by norm_num) (by norm_num) (by norm_num) (by norm_num),
    setManualTime_clamps.2 9 5 30 initState
      (by norm_num) (by norm_num) (by norm_num) (by norm_num) (by norm_num) (by norm_num)⟩

/-! ## C6 and C10: parseTimeString -/

/-- C6: `parseTimeString` maps `"9:05"` to `(9,5,0)`, `"09:05:30"` to
`(9,5,30)`, rejects `"25:00"`, `"9:5:5:5"` and `""`; an omitted third
component defaults the seconds to 0, and every accepted component lies in
`h ∈ [0,23]`, `m, s ∈ [0,59]` (out-of-range components yield `null`). -/
theorem parseTimeString_cases :
    parseTimeString ['9', ':', '0', '5'] = some (9, 5, 0) ∧
    parseTimeString ['0', '9', ':', '0', '5', ':', '3', '0'] = some (9, 5, 30) ∧
    parseTimeString ['2', '5', ':', '0', '0'] = none ∧
    parseTimeString ['9', ':', '5', ':', '5', ':', '5'] = none ∧
    parseTimeString [] = none ∧
    (∀ (l : List Char) (h m s : ℤ), parseTimeString l = some (h, m, s) →
      0 ≤ h ∧ h ≤ 23 ∧ 0 ≤ m ∧ m ≤ 59 ∧ 0 ≤ s ∧ s ≤ 59) ∧
    (∀ (l : List Char) (h m s : ℤ), ((jsTrim l).splitOn ':').length = 2 →
      parseTimeString l = some (h, m, s) → s = 0) := by
  refine ⟨by decide, by decide, by decide, by decide, by decide, ?_, ?_⟩
  · intro l h m s hp
    unfold parseTimeString at hp
    split at hp
    · simp at hp
    · split at hp
      · split_ifs at hp with h1 h2 h3
        push_neg at h1 h2 h3
        simp only [Option.some.injEq, Prod.mk.injEq] at hp
        obtain ⟨e1, e2, e3⟩ := hp
        subst e1; subst e2; subst e3
        omega
      · simp at hp
  · intro l h m s hlen hp
    unfold parseTimeString at hp
    rw [hlen] at hp
    rw [if_neg (by omega : ¬((2 : ℕ) < 2 ∨ 3 < 2)), if_neg (by omega : ¬(2 = 3))] at hp
    rcases e0 : jsParseInt (((jsTrim l).splitOn ':').getD 0 []) with _ | h0
    · rw [e0] at hp; simp at hp
    · rcases e1 : jsParseInt (((jsTrim l).splitOn ':').getD 1 []) with _ | m0
      · rw [e0, e1] at hp; simp at hp
      · rw [e0, e1] at hp
        dsimp only at hp
        split_ifs at hp
        simp only [Option.some.injEq, Prod.mk.injEq] at hp
        exact hp.2.2.symm

/-- C10: `parseTimeString` validates only the leading numeric prefix of
each colon-separated part (`parseInt` semantics): whenever the trimmed
split yields 2 or 3 parts whose `parseInt` values are in range, it returns
that time — e.g. `"9a:05"` parses to `(9,5,0)` rather than `null`. -/
theorem parseTimeString_parses_numeric_prefix :
    parseTimeString ['9', 'a', ':', '0', '5'] = some (9, 5, 0) ∧
    (∀ (l : List Char) (h m s : ℤ),
      (((jsTrim l).splitOn ':').length = 2 ∨ ((jsTrim l).splitOn ':').length = 3) →
      jsParseInt (((jsTrim l).splitOn ':').getD 0 []) = some h → 0 ≤ h → h ≤ 23 →
      jsParseInt (((jsTrim l).splitOn ':').getD 1 []) = some m → 0 ≤ m → m ≤ 59 →
      (if ((jsTrim l).splitOn ':').length = 3
        then jsParseInt (((jsTrim l).splitOn ':').getD 2 [])
        else some 0) = some s → 0 ≤ s → s ≤ 59 →
      parseTimeString l = some (h, m, s)) := by
  refine ⟨by decide, ?_⟩
  intro l h m s hlen hh hh1 hh2 hm hm1 hm2 hs hs1 hs2
  unfold parseTimeString
  rw [if_neg (by omega), hh, hm, hs]
  dsimp only
  rw [if_neg (by omega), if_neg (by omega), if_neg (by omega)]

/-- C10 witness: `"7x:08"` parses to `(7, 8, 0)`, through the general
prefix-parsing statement. -/
theorem parseTimeString_parses_numeric_prefix_witness :
    parseTimeString ['7', 'x', ':', '0', '8'] = some (7, 8, 0) :=
  parseTimeString_parses_numeric_prefix.2 ['7', 'x', ':', '0', '8'] 7 8 0
    (by decide) (by decide) (by decide) (by decide) (by decide) (by decide) (by decide)
    (by decide) (by decide) (by decide)

/-! ## C1: the AUTO phase schedule -/

theorem p5map_eq_lerp (v a b : ℚ) : p5map v 0 1 a b = lerpQ a b v := by
  unfold p5map lerpQ
  ring

theorem qcast_lt {a b : ℚ} (h : a < b) : (a : ℝ) < (b : ℝ) := by
  exact_mod_cast h

theorem qcast_le {a b : ℚ} (h : a ≤ b) : (a : ℝ) ≤ (b : ℝ) := by
  exact_mod_cast h

theorem contOn_affine (a b : ℝ) {f : ℝ → ℝ} {s : Set ℝ}
    (h : ∀ x ∈ s, f x = a + b * x) : ContinuousOn f s :=
  ContinuousOn.congr ((continuous_const.add (continuous_const.mul continuous_id)).continuousOn) h

theorem jsFmod_nonneg_lt (t : ℚ) (ht : 0 ≤ t) : 0 ≤ jsFmod t 23 ∧ jsFmod t 23 < 23 := by
  unfold jsFmod ratTrunc
  rw [if_pos (div_nonneg ht (by norm_num))]
  have h1 : (⌊t / 23⌋ : ℚ) ≤ t / 23 := Int.floor_le _
  have h2 : t / 23 < (⌊t / 23⌋ : ℚ) + 1 := Int.lt_floor_add_one _
  constructor
  · have := mul_le_mul_of_nonneg_left h1 (show (0 : ℚ) ≤ 23 by norm_num)
    have h23 : (23 : ℚ) * (t / 23) = t := by ring
    linarith
  · have := mul_lt_mul_of_pos_left h2 (show (0 : ℚ) < 23 by norm_num)
    have h23 : (23 : ℚ) * (t / 23) = t := by ring
    linarith

/-- C1: in AUTO mode, for every cycle time `c ∈ [0, 23)`, the two alphas
follow the five-window schedule of the claim (floored linear ramps, with
`geoAlpha = 0` at `c = 1.5` exactly), the integer alphas are exactly the
floors of the underlying real-valued linear ramps, those ramps are
continuous on each single window, and the cycle time
`accumulatedTime % 23` always lies in `[0, 23)`. -/
theorem auto_phase_schedule (c : ℚ) (hc0 : 0 ≤ c) (hc1 : c < 23) :
    ((c < 3 / 2 → autoGeoAlpha c = ⌊lerpQ 255 0 (c / (3 / 2))⌋ ∧ autoTriAlpha c = 0) ∧
     (3 / 2 ≤ c → c < 23 / 2 → autoGeoAlpha c = 0 ∧ autoTriAlpha c = 255) ∧
     (23 / 2 ≤ c → c < 13 → autoGeoAlpha c = 0 ∧
        autoTriAlpha c = ⌊lerpQ 255 0 ((c - 23 / 2) / (3 / 2))⌋) ∧
     (13 ≤ c → c < 29 / 2 → autoTriAlpha c = 0 ∧
        autoGeoAlpha c = ⌊lerpQ 0 255 ((c - 13) / (3 / 2))⌋) ∧
     (29 / 2 ≤ c → autoGeoAlpha c = 255 ∧ autoTriAlpha c = 0)) ∧
    (autoGeoAlpha c = ⌊rampGeoR (c : ℝ)⌋ ∧ autoTriAlpha c = ⌊rampTriR (c : ℝ)⌋) ∧
    (ContinuousOn rampGeoR (Set.Ico (0 : ℝ) (3 / 2)) ∧
     ContinuousOn rampTriR (Set.Ico (0 : ℝ) (3 / 2)) ∧
     ContinuousOn rampGeoR (Set.Ico (3 / 2 : ℝ) (23 / 2)) ∧
     ContinuousOn rampTriR (Set.Ico (3 / 2 : ℝ) (23 / 2)) ∧
     ContinuousOn rampGeoR (Set.Ico (23 / 2 : ℝ) 13) ∧
     ContinuousOn rampTriR (Set.Ico (23 / 2 : ℝ) 13) ∧
     ContinuousOn rampGeoR (Set.Ico (13 : ℝ) (29 / 2)) ∧
     ContinuousOn rampTriR (Set.Ico (13 : ℝ) (29 / 2)) ∧
     ContinuousOn rampGeoR (Set.Ico (29 / 2 : ℝ) 23) ∧
     ContinuousOn rampTriR (Set.Ico (29 / 2 : ℝ) 23)) ∧
    (∀ t : ℚ, 0 ≤ t → 0 ≤ jsFmod t 23 ∧ jsFmod t 23 < 23) := by
  refine ⟨⟨?_, ?_, ?_, ?_, ?_⟩, ⟨?_, ?_⟩, ⟨?_, ?_, ?_, ?_, ?_, ?_, ?_, ?_, ?_, ?_⟩,
    jsFmod_nonneg_lt⟩
  · intro h
    unfold autoGeoAlpha autoTriAlpha
    rw [if_pos h, if_pos h, p5map_eq_lerp]
    exact ⟨rfl, rfl⟩
  · intro h1 h2
    unfold autoGeoAlpha autoTriAlpha
    rw [if_neg (not_lt.mpr h1), if_neg (not_lt.mpr h1), if_pos h2, if_pos h2]
    exact ⟨rfl, rfl⟩
  · intro h1 h2
    have h0 : ¬c < 3 / 2 := by linarith
    have h0' : ¬c < 23 / 2 := not_lt.mpr h1
    unfold autoGeoAlpha autoTriAlpha
    rw [if_neg h0, if_neg h0, if_neg h0', if_neg h0', if_pos h2, if_pos h2, p5map_eq_lerp]
    exact ⟨rfl, rfl⟩
  · intro h1 h2
    have h0 : ¬c < 3 / 2 := by linarith
    have h0' : ¬c < 23 / 2 := by linarith
    have h0'' : ¬c < 13 := not_lt.mpr h1
    unfold autoGeoAlpha autoTriAlpha
    rw [if_neg h0, if_neg h0, if_neg h0', if_neg h0', if_neg h0'', if_neg h0'',
      if_pos h2, if_pos h2, p5map_eq_lerp]
    exact ⟨rfl, rfl⟩
  · intro h1
    have h0 : ¬c < 3 / 2 := by linarith
    have h0' : ¬c < 23 / 2 := by linarith
    have h0'' : ¬c < 13 := by linarith
    have h0''' : ¬c < 29 / 2 := not_lt.mpr h1
    unfold autoGeoAlpha autoTriAlpha
    rw [if_neg h0, if_neg h0, if_neg h0', if_neg h0', if_neg h0'', if_neg h0'',
      if_neg h0''', if_neg h0''']
    exact ⟨rfl, rfl⟩
  · unfold autoGeoAlpha rampGeoR
    rcases lt_or_le c (3 / 2) with h | h
    · rw [if_pos h, if_pos (show (c : ℝ) < 3 / 2 by first | (have h9 := qcast_lt h; push_cast at h9; exact h9) | (have h9 := qcast_le h; push_cast at h9; exact h9))]
      rw [show p5mapR ((c : ℝ) / (3 / 2)) 0 1 255 0 = ((p5map (c / (3 / 2)) 0 1 255 0 : ℚ) : ℝ) by
        unfold p5mapR p5map; push_cast; ring]
      rw [Rat.floor_cast]
    · rw [if_neg (not_lt.mpr h), if_neg (not_lt.mpr (show (3 / 2 : ℝ) ≤ (c : ℝ) by first | (have h9 := qcast_lt h; push_cast at h9; exact h9) | (have h9 := qcast_le h; push_cast at h9; exact h9)))]
      rcases lt_or_le c (23 / 2) with h2 | h2
      · rw [if_pos h2, if_pos (show (c : ℝ) < 23 / 2 by first | (have h9 := qcast_lt h2; push_cast at h9; exact h9) | (have h9 := qcast_le h2; push_cast at h9; exact h9))]
        norm_num
      · rw [if_neg (not_lt.mpr h2),
          if_neg (not_lt.mpr (show (23 / 2 : ℝ) ≤ (c : ℝ) by first | (have h9 := qcast_lt h2; push_cast at h9; exact h9) | (have h9 := qcast_le h2; push_cast at h9; exact h9)))]
        rcases lt_or_le c 13 with h3 | h3
        · rw [if_pos h3, if_pos (show (c : ℝ) < 13 by first | (have h9 := qcast_lt h3; push_cast at h9; exact h9) | (have h9 := qcast_le h3; push_cast at h9; exact h9))]
          norm_num
        · rw [if_neg (not_lt.mpr h3),
            if_neg (not_lt.mpr (show (13 : ℝ) ≤ (c : ℝ) by first | (have h9 := qcast_lt h3; push_cast at h9; exact h9) | (have h9 := qcast_le h3; push_cast at h9; exact h9)))]
          rcases lt_or_le c (29 / 2) with h4 | h4
          · rw [if_pos h4, if_pos (show (c : ℝ) < 29 / 2 by first | (have h9 := qcast_lt h4; push_cast at h9; exact h9) | (have h9 := qcast_le h4; push_cast at h9; exact h9))]
            rw [show p5mapR (((c : ℝ) - 13) / (3 / 2)) 0 1 0 255 =
                ((p5map ((c - 13) / (3 / 2)) 0 1 0 255 : ℚ) : ℝ) by
              unfold p5mapR p5map; push_cast; ring]
            rw [Rat.floor_cast]
          · rw [if_neg (not_lt.mpr h4),
              if_neg (not_lt.mpr (show (29 / 2 : ℝ) ≤ (c : ℝ) by first | (have h9 := qcast_lt h4; push_cast at h9; exact h9) | (have h9 := qcast_le h4; push_cast at h9; exact h9)))]
            norm_num
  · unfold autoTriAlpha rampTriR
    rcases lt_or_le c (3 / 2) with h | h
    · rw [if_pos h, if_pos (show (c : ℝ) < 3 / 2 by first | (have h9 := qcast_lt h; push_cast at h9; exact h9) | (have h9 := qcast_le h; push_cast at h9; exact h9))]
      norm_num
    · rw [if_neg (not_lt.mpr h), if_neg (not_lt.mpr (show (3 / 2 : ℝ) ≤ (c : ℝ) by first | (have h9 := qcast_lt h; push_cast at h9; exact h9) | (have h9 := qcast_le h; push_cast at h9; exact h9)))]
      rcases lt_or_le c (23 / 2) with h2 | h2
      · rw [if_pos h2, if_pos (show (c : ℝ) < 23 / 2 by first | (have h9 := qcast_lt h2; push_cast at h9; exact h9) | (have h9 := qcast_le h2; push_cast at h9; exact h9))]
        norm_num
      · rw [if_neg (not_lt.mpr h2),
          if_neg (not_lt.mpr (show (23 / 2 : ℝ) ≤ (c : ℝ) by first | (have h9 := qcast_lt h2; push_cast at h9; exact h9) | (have h9 := qcast_le h2; push_cast at h9; exact h9)))]
        rcases lt_or_le c 13 with h3 | h3
        · rw [if_pos h3, if_pos (show (c : ℝ) < 13 by first | (have h9 := qcast_lt h3; push_cast at h9; exact h9) | (have h9 := qcast_le h3; push_cast at h9; exact h9))]
          rw [show p5mapR (((c : ℝ) - 23 / 2) / (3 / 2)) 0 1 255 0 =
              ((p5map ((c - 23 / 2) / (3 / 2)) 0 1 255 0 : ℚ) : ℝ) by
            unfold p5mapR p5map; push_cast; ring]
          rw [Rat.floor_cast]
        · rw [if_neg (not_lt.mpr h3),
            if_neg (not_lt.mpr (show (13 : ℝ) ≤ (c : ℝ) by first | (have h9 := qcast_lt h3; push_cast at h9; exact h9) | (have h9 := qcast_le h3; push_cast at h9; exact h9)))]
          rcases lt_or_le c (29 / 2) with h4 | h4
          · rw [if_pos h4, if_pos (show (c : ℝ) < 29 / 2 by first | (have h9 := qcast_lt h4; push_cast at h9; exact h9) | (have h9 := qcast_le h4; push_cast at h9; exact h9))]
            norm_num
          · rw [if_neg (not_lt.mpr h4),
              if_neg (not_lt.mpr (show (29 / 2 : ℝ) ≤ (c : ℝ) by first | (have h9 := qcast_lt h4; push_cast at h9; exact h9) | (have h9 := qcast_le h4; push_cast at h9; exact h9)))]
            norm_num
  · refine contOn_affine 255 (-170) ?_
    intro x hx
    unfold rampGeoR p5mapR
    rw [if_pos hx.2]
    ring
  · refine contOn_affine 0 0 ?_
    intro x hx
    unfold rampTriR
    rw [if_pos hx.2]
    ring
  · refine contOn_affine 0 0 ?_
    intro x hx
    unfold rampGeoR
    rw [if_neg (not_lt.mpr hx.1), if_pos hx.2]
    ring
  · refine contOn_affine 255 0 ?_
    intro x hx
    unfold rampTriR
    rw [if_neg (not_lt.mpr hx.1), if_pos hx.2]
    ring
  · refine contOn_affine 0 0 ?_
    intro x hx
    unfold rampGeoR
    rw [if_neg (by linarith [hx.1] : ¬x < 3 / 2), if_neg (not_lt.mpr hx.1), if_pos hx.2]
    ring
  · refine contOn_affine 2210 (-170) ?_
    intro x hx
    unfold rampTriR p5mapR
    rw [if_neg (by linarith [hx.1] : ¬x < 3 / 2), if_neg (not_lt.mpr hx.1), if_pos hx.2]
    ring
  · refine contOn_affine (-2210) 170 ?_
    intro x hx
    unfold rampGeoR p5mapR
    rw [if_neg (by linarith [hx.1] : ¬x < 3 / 2), if_neg (by linarith [hx.1] : ¬x < 23 / 2),
      if_neg (not_lt.mpr hx.1), if_pos hx.2]
    ring
  · refine contOn_affine 0 0 ?_
    intro x hx
    unfold rampTriR
    rw [if_neg (by linarith [hx.1] : ¬x < 3 / 2), if_neg (by linarith [hx.1] : ¬x < 23 / 2),
      if_neg (not_lt.mpr hx.1), if_pos hx.2]
    ring
  · refine contOn_affine 255 0 ?_
    intro x hx
    unfold rampGeoR
    rw [if_neg (by linarith [hx.1] : ¬x < 3 / 2), if_neg (by linarith [hx.1] : ¬x < 23 / 2),
      if_neg (by linarith [hx.1] : ¬x < 13), if_neg (not_lt.mpr hx.1)]
    ring
  · refine contOn_affine 0 0 ?_
    intro x hx
    unfold rampTriR
    rw [if_neg (by linarith [hx.1] : ¬x < 3 / 2), if_neg (by linarith [hx.1] : ¬x < 23 / 2),
      if_neg (by linarith [hx.1] : ¬x < 13), if_neg (not_lt.mpr hx.1)]
    ring

/-- C1 witness: the schedule evaluated inside window 1 (`c = 1`) and at the
spec's mid-window-2 point `c = 6`. -/
theorem auto_phase_schedule_witness :
    autoGeoAlpha 1 = ⌊lerpQ 255 0 (1 / (3 / 2))⌋ ∧ autoTriAlpha 1 = 0 ∧
    autoGeoAlpha 6 = 0 ∧ autoTriAlpha 6 = 255 := by
  have h1 := (auto_phase_schedule 1 (by norm_num) (by norm_num)).1.1 (by norm_num)
  have h6 := (auto_phase_schedule 6 (by norm_num) (by norm_num)).1.2.1 (by norm_num) (by norm_num)
  exact ⟨h1.1, h1.2, h6.1, h6.2⟩

/-! ## Helper lemmas about the frame and key transitions -/

theorem setRandomTime_fields (rh rm rs : ℚ) (st : AppState) :
    (setRandomTime rh rm rs st).rouletteState = st.rouletteState ∧
    (setRandomTime rh rm rs st).rouletteInterval = st.rouletteInterval ∧
    (setRandomTime rh rm rs st).rouletteNextAt = st.rouletteNextAt ∧
    (setRandomTime rh rm rs st).typingMode = st.typingMode ∧
    (setRandomTime rh rm rs st).phaseMode = st.phaseMode ∧
    (setRandomTime rh rm rs st).manualPhaseEnabled = st.manualPhaseEnabled ∧
    (setRandomTime rh rm rs st).fadeTimer = st.fadeTimer ∧
    (setRandomTime rh rm rs st).useLiveTime = false := by
  unfold setRandomTime setManualTime
  simp

theorem rouletteFrame_phase_fields (now rh rm rs : ℚ) (st : AppState) :
    (rouletteFrame now rh rm rs st).phaseMode = st.phaseMode ∧
    (rouletteFrame now rh rm rs st).manualPhaseEnabled = st.manualPhaseEnabled ∧
    (rouletteFrame now rh rm rs st).fadeTimer = st.fadeTimer ∧
    (rouletteFrame now rh rm rs st).typingMode = st.typingMode := by
  unfold rouletteFrame setRandomTime setManualTime rouletteStop
  dsimp only
  split_ifs <;> exact ⟨rfl, rfl, rfl, rfl⟩

theorem phaseFrame_other_fields (st : AppState) :
    (phaseFrame st).rouletteState = st.rouletteState ∧
    (phaseFrame st).rouletteInterval = st.rouletteInterval ∧
    (phaseFrame st).rouletteNextAt = st.rouletteNextAt ∧
    (phaseFrame st).manualH = st.manualH ∧
    (phaseFrame st).manualM = st.manualM ∧
    (phaseFrame st).manualS = st.manualS ∧
    (phaseFrame st).useLiveTime = st.useLiveTime ∧
    (phaseFrame st).typingMode = st.typingMode ∧
    (phaseFrame st).fadeTimer = st.fadeTimer := by
  unfold phaseFrame
  split_ifs <;> simp

theorem rouletteFrame_off {st : AppState} (now rh rm rs : ℚ)
    (h : st.rouletteState = .off) : rouletteFrame now rh rm rs st = st := by
  unfold rouletteFrame
  rw [if_neg]
  simp [h]

theorem rouletteFrame_noTick {st : AppState} (now rh rm rs : ℚ)
    (h : ¬st.rouletteNextAt ≤ now) : rouletteFrame now rh rm rs st = st := by
  unfold rouletteFrame
  rw [if_neg]
  simp [h]

theorem rouletteFrame_spin {st : AppState} (now rh rm rs : ℚ)
    (h1 : st.rouletteState = .spin) (h2 : st.rouletteNextAt ≤ now) :
    rouletteFrame now rh rm rs st =
      { setRandomTime rh rm rs st with
        rouletteInterval := ROULETTE_FAST
        rouletteNextAt := now + ROULETTE_FAST } := by
  unfold rouletteFrame
  rw [if_pos ⟨by simp [h1], h2⟩, if_pos (by simp [setRandomTime, setManualTime, h1])]

theorem rouletteFrame_brake {st : AppState} (now rh rm rs : ℚ)
    (h1 : st.rouletteState = .brake) (h2 : st.rouletteNextAt ≤ now) :
    rouletteFrame now rh rm rs st =
      (if ROULETTE_SLOW_STOP ≤ st.rouletteInterval * ROULETTE_BRAKE_MULT then
        rouletteStop
          { setRandomTime rh rm rs st with
            rouletteInterval := st.rouletteInterval * ROULETTE_BRAKE_MULT
            rouletteNextAt := now + st.rouletteInterval * ROULETTE_BRAKE_MULT }
      else
        { setRandomTime rh rm rs st with
          rouletteInterval := st.rouletteInterval * ROULETTE_BRAKE_MULT
          rouletteNextAt := now + st.rouletteInterval * ROULETTE_BRAKE_MULT }) := by
  unfold rouletteFrame
  rw [if_pos ⟨by simp [h1], h2⟩, if_neg (by simp [setRandomTime, setManualTime, h1]),
    if_pos (by simp [setRandomTime, setManualTime, h1])]
  simp [setRandomTime, setManualTime]

theorem phaseFrame_lock_geo {s : AppState} (hman : s.manualPhaseEnabled = true)
    (hmode : s.phaseMode = Phase.geo) :
    phaseFrame s = { s with geoAlpha := 255, triContentAlpha := 0 } := by
  unfold phaseFrame
  rw [if_neg (by simp [hman]), if_neg (by simp [hmode]), if_pos hmode]

theorem phaseFrame_lock_tri {s : AppState} (hman : s.manualPhaseEnabled = true)
    (hmode : s.phaseMode = Phase.tri) :
    phaseFrame s = { s with geoAlpha := 0, triContentAlpha := 255 } := by
  unfold phaseFrame
  rw [if_neg (by simp [hman]), if_pos hmode]

theorem phaseFrame_auto {s : AppState} (hman : s.manualPhaseEnabled = false)
    (hmode : s.phaseMode = Phase.auto) :
    phaseFrame s =
      { s with
        geoAlpha := autoGeoAlpha (jsFmod s.fadeTimer 23)
        triContentAlpha := autoTriAlpha (jsFmod s.fadeTimer 23) } := by
  unfold phaseFrame
  rw [if_pos ⟨by simp [hman], hmode⟩]

/-! ## C7: manual phase lock pins the alphas, the cycle clock keeps running -/

/-- C7: while a manual phase lock is active the alphas are pinned (GEO:
255/0, TRI: 0/255) independently of the cycle time, yet `fadeTimer` keeps
accumulating `dt` unchanged; and whenever the scheduler is back in AUTO the
alphas are computed from the live cycle position `(fadeTimer + dt) % 23` of
the same running clock, not from a restarted one. -/
theorem phase_lock_pins_alphas (st : AppState) (now dt rh rm rs : ℚ) :
    (st.manualPhaseEnabled = true → st.phaseMode = Phase.geo →
      (frameStep now dt rh rm rs st).geoAlpha = 255 ∧
      (frameStep now dt rh rm rs st).triContentAlpha = 0 ∧
      (frameStep now dt rh rm rs st).fadeTimer = st.fadeTimer + dt ∧
      (frameStep now dt rh rm rs st).phaseMode = Phase.geo ∧
      (frameStep now dt rh rm rs st).manualPhaseEnabled = true) ∧
    (st.manualPhaseEnabled = true → st.phaseMode = Phase.tri →
      (frameStep now dt rh rm rs st).geoAlpha = 0 ∧
      (frameStep now dt rh rm rs st).triContentAlpha = 255 ∧
      (frameStep now dt rh rm rs st).fadeTimer = st.fadeTimer + dt ∧
      (frameStep now dt rh rm rs st).phaseMode = Phase.tri ∧
      (frameStep now dt rh rm rs st).manualPhaseEnabled = true) ∧
    (st.manualPhaseEnabled = false → st.phaseMode = Phase.auto →
      (frameStep now dt rh rm rs st).geoAlpha =
        autoGeoAlpha (jsFmod (st.fadeTimer + dt) 23) ∧
      (frameStep now dt rh rm rs st).triContentAlpha =
        autoTriAlpha (jsFmod (st.fadeTimer + dt) 23) ∧
      (frameStep now dt rh rm rs st).fadeTimer = st.fadeTimer + dt) := by
  obtain ⟨e1, e2, e3, _⟩ :=
    rouletteFrame_phase_fields now rh rm rs { st with fadeTimer := st.fadeTimer + dt }
  refine ⟨?_, ?_, ?_⟩
  · intro hman hmode
    have hman' : (rouletteFrame now rh rm rs
        { st with fadeTimer := st.fadeTimer + dt }).manualPhaseEnabled = true := by
      rw [e2]; exact hman
    have hmode' : (rouletteFrame now rh rm rs
        { st with fadeTimer := st.fadeTimer + dt }).phaseMode = Phase.geo := by
      rw [e1]; exact hmode
    unfold frameStep
    rw [phaseFrame_lock_geo hman' hmode']
    exact ⟨rfl, rfl, e3, hmode', hman'⟩
  · intro hman hmode
    have hman' : (rouletteFrame now rh rm rs
        { st with fadeTimer := st.fadeTimer + dt }).manualPhaseEnabled = true := by
      rw [e2]; exact hman
    have hmode' : (rouletteFrame now rh rm rs
        { st with fadeTimer := st.fadeTimer + dt }).phaseMode = Phase.tri := by
      rw [e1]; exact hmode
    unfold frameStep
    rw [phaseFrame_lock_tri hman' hmode']
    exact ⟨rfl, rfl, e3, hmode', hman'⟩
  · intro hman hmode
    have hman' : (rouletteFrame now rh rm rs
        { st with fadeTimer := st.fadeTimer + dt }).manualPhaseEnabled = false := by
      rw [e2]; exact hman
    have hmode' : (rouletteFrame now rh rm rs
        { st with fadeTimer := st.fadeTimer + dt }).phaseMode = Phase.auto := by
      rw [e1]; exact hmode
    unfold frameStep
    rw [phaseFrame_auto hman' hmode']
    exact ⟨by rw [e3], by rw [e3], e3⟩

/-- C7 witness: a locked-GEO state with the cycle clock at 7 keeps its
clock running to 9 while pinned at 255/0, and the corresponding AUTO state
computes the alphas from cycle position 9 (mid window 2: 0/255). -/
theorem phase_lock_pins_alphas_witness :
    (frameStep 100 2 0 0 0
        { initState with manualPhaseEnabled := true, phaseMode := Phase.geo, fadeTimer := 7 }).geoAlpha = 255 ∧
    (frameStep 100 2 0 0 0
        { initState with manualPhaseEnabled := true, phaseMode := Phase.geo, fadeTimer := 7 }).fadeTimer = 7 + 2 ∧
    (frameStep 100 2 0 0 0 { initState with fadeTimer := 7 }).geoAlpha =
      autoGeoAlpha (jsFmod (7 + 2) 23) := by
  have h1 := (phase_lock_pins_alphas
    { initState with manualPhaseEnabled := true, phaseMode := Phase.geo, fadeTimer := 7 }
    100 2 0 0 0).1 rfl rfl
  have h2 := (phase_lock_pins_alphas { initState with fadeTimer := 7 } 100 2 0 0 0).2.2 rfl rfl
  exact ⟨h1.1, h1.2.2.1, h2.1⟩

/-! ## Key-event lemmas -/

theorem keyPressed_z_off {st : AppState} (now : ℚ) (h : st.rouletteState = .off) :
    keyPressed (.ch 'z') now st = rouletteStart now st := by
  unfold keyPressed
  dsimp only
  rw [if_neg (show ¬('z' = 'r' ∨ 'z' = 'R') by decide),
    if_pos (show ('z' = 'z' ∨ 'z' = 'Z') by decide), if_pos h]

theorem keyPressed_z_spin {st : AppState} (now : ℚ) (h : st.rouletteState = .spin) :
    keyPressed (.ch 'z') now st = rouletteBeginBrake now st := by
  unfold keyPressed
  dsimp only
  rw [if_neg (show ¬('z' = 'r' ∨ 'z' = 'R') by decide),
    if_pos (show ('z' = 'z' ∨ 'z' = 'Z') by decide), if_neg (by simp [h]), if_pos h]

theorem keyPressed_z_brake {st : AppState} (now : ℚ) (h : st.rouletteState = .brake) :
    keyPressed (.ch 'z') now st = rouletteStop st := by
  unfold keyPressed
  dsimp only
  rw [if_neg (show ¬('z' = 'r' ∨ 'z' = 'R') by decide),
    if_pos (show ('z' = 'z' ∨ 'z' = 'Z') by decide), if_neg (by simp [h]), if_neg (by simp [h])]

theorem keyPressed_t_stops {st : AppState} (now : ℚ) :
    (keyPressed (.ch 't') now st).rouletteState = .off := by
  unfold keyPressed
  dsimp only
  rw [if_neg (show ¬('t' = 'r' ∨ 't' = 'R') by decide),
    if_neg (show ¬('t' = 'z' ∨ 't' = 'Z') by decide),
    if_neg (show ¬('t' = ' ') by decide), if_neg (show ¬('t' = '1') by decide),
    if_neg (show ¬('t' = '2') by decide), if_neg (show ¬('t' = '3') by decide),
    if_pos (show ('t' = 't' ∨ 't' = 'T') by decide)]
  split_ifs <;> rfl

theorem keyPressed_interval (ev : KeyEv) (now : ℚ) (s : AppState) :
    (keyPressed ev now s).rouletteInterval = s.rouletteInterval ∨
    (keyPressed ev now s).rouletteInterval = ROULETTE_FAST := by
  cases ev with
  | ch c =>
      unfold keyPressed
      dsimp only
      by_cases h1 : c = 'r' ∨ c = 'R'
      · rw [if_pos h1]; exact Or.inl rfl
      · rw [if_neg h1]
        by_cases h2 : c = 'z' ∨ c = 'Z'
        · rw [if_pos h2]
          by_cases h3 : s.rouletteState = RoulS.off
          · rw [if_pos h3]; exact Or.inr rfl
          · rw [if_neg h3]
            by_cases h4 : s.rouletteState = RoulS.spin
            · rw [if_pos h4]; exact Or.inl rfl
            · rw [if_neg h4]; exact Or.inl rfl
        · rw [if_neg h2]
          by_cases h3 : c = ' '
          · rw [if_pos h3]
            by_cases h4 : s.manualPhaseEnabled = true
            · rw [if_pos h4]; exact Or.inl rfl
            · rw [if_neg h4]; exact Or.inl rfl
          · rw [if_neg h3]
            by_cases h4 : c = '1'
            · rw [if_pos h4]; exact Or.inl rfl
            · rw [if_neg h4]
              by_cases h5 : c = '2'
              · rw [if_pos h5]; exact Or.inl rfl
              · rw [if_neg h5]
                by_cases h6 : c = '3'
                · rw [if_pos h6]; exact Or.inl rfl
                · rw [if_neg h6]
                  by_cases h7 : c = 't' ∨ c = 'T'
                  · rw [if_pos h7]
                    by_cases h8 : (rouletteStop s).typingMode = true
                    · rw [if_pos h8]; exact Or.inl rfl
                    · rw [if_neg h8]; exact Or.inl rfl
                  · rw [if_neg h7]
                    by_cases h8 : s.typingMode = true
                    · rw [if_pos h8]
                      by_cases h9 : ('0' ≤ c ∧ c ≤ '9') ∨ c = ':'
                      · rw [if_pos h9]
                        by_cases h10 : s.timeInput.length < 8
                        · rw [if_pos h10]; exact Or.inl rfl
                        · rw [if_neg h10]; exact Or.inl rfl
                      · rw [if_neg h9]; exact Or.inl rfl
                    · rw [if_neg h8]; exact Or.inl rfl
  | escape =>
      unfold keyPressed
      dsimp only
      by_cases h1 : s.typingMode = true
      · rw [if_pos h1]; exact Or.inl rfl
      · rw [if_neg h1]; exact Or.inl rfl
  | enter =>
      unfold keyPressed
      dsimp only
      by_cases h1 : s.typingMode = true
      · rw [if_pos h1]
        rcases hp : parseTimeString s.timeInput with _ | ⟨hh, mm, ss⟩
        · exact Or.inl rfl
        · exact Or.inl rfl
      · rw [if_neg h1]; exact Or.inl rfl
  | backspace =>
      unfold keyPressed
      dsimp only
      by_cases h1 : s.typingMode = true
      · rw [if_pos h1]; exact Or.inl rfl
      · rw [if_neg h1]; exact Or.inl rfl

theorem keyPressed_typing_off (ev : KeyEv) (now : ℚ) (s : AppState)
    (ih : s.typingMode = true → s.rouletteState = .off) :
    (keyPressed ev now s).typingMode = true → (keyPressed ev now s).rouletteState = .off := by
  cases ev with
  | ch c =>
      unfold keyPressed
      dsimp only
      by_cases h1 : c = 'r' ∨ c = 'R'
      · rw [if_pos h1]; intro ht; simp at ht
      · rw [if_neg h1]
        by_cases h2 : c = 'z' ∨ c = 'Z'
        · rw [if_pos h2]
          by_cases h3 : s.rouletteState = RoulS.off
          · rw [if_pos h3]; intro ht; simp [rouletteStart] at ht
          · rw [if_neg h3]
            by_cases h4 : s.rouletteState = RoulS.spin
            · rw [if_pos h4]
              intro ht
              exact absurd (ih ht) h3
            · rw [if_neg h4]; intro _; rfl
        · rw [if_neg h2]
          by_cases h3 : c = ' '
          · rw [if_pos h3]
            by_cases h4 : s.manualPhaseEnabled = true
            · rw [if_pos h4]; exact ih
            · rw [if_neg h4]; exact ih
          · rw [if_neg h3]
            by_cases h4 : c = '1'
            · rw [if_pos h4]; exact ih
            · rw [if_neg h4]
              by_cases h5 : c = '2'
              · rw [if_pos h5]; exact ih
              · rw [if_neg h5]
                by_cases h6 : c = '3'
                · rw [if_pos h6]; exact ih
                · rw [if_neg h6]
                  by_cases h7 : c = 't' ∨ c = 'T'
                  · rw [if_pos h7]
                    by_cases h8 : (rouletteStop s).typingMode = true
                    · rw [if_pos h8]; intro _; rfl
                    · rw [if_neg h8]; intro _; rfl
                  · rw [if_neg h7]
                    by_cases h8 : s.typingMode = true
                    · rw [if_pos h8]
                      by_cases h9 : ('0' ≤ c ∧ c ≤ '9') ∨ c = ':'
                      · rw [if_pos h9]
                        by_cases h10 : s.timeInput.length < 8
                        · rw [if_pos h10]; exact ih
                        · rw [if_neg h10]; exact ih
                      · rw [if_neg h9]; exact ih
                    · rw [if_neg h8]; exact ih
  | escape =>
      unfold keyPressed
      dsimp only
      by_cases h1 : s.typingMode = true
      · rw [if_pos h1]; intro ht; simp at ht
      · rw [if_neg h1]; exact ih
  | enter =>
      unfold keyPressed
      dsimp only
      by_cases h1 : s.typingMode = true
      · rw [if_pos h1]
        rcases hp : parseTimeString s.timeInput with _ | ⟨hh, mm, ss⟩
        · exact ih
        · intro ht
          simp [setManualTime] at ht
      · rw [if_neg h1]; exact ih
  | backspace =>
      unfold keyPressed
      dsimp only
      by_cases h1 : s.typingMode = true
      · rw [if_pos h1]; exact ih
      · rw [if_neg h1]; exact ih

theorem frameStep_typing (now dt rh rm rs : ℚ) (s : AppState) :
    (frameStep now dt rh rm rs s).typingMode = s.typingMode := by
  unfold frameStep
  rw [(phaseFrame_other_fields _).2.2.2.2.2.2.2.1]
  exact (rouletteFrame_phase_fields now rh rm rs _).2.2.2

theorem frameStep_roulState (now dt rh rm rs : ℚ) (s : AppState) :
    (frameStep now dt rh rm rs s).rouletteState = s.rouletteState ∨
    (frameStep now dt rh rm rs s).rouletteState = .off := by
  unfold frameStep
  rw [(phaseFrame_other_fields _).1]
  generalize hs1 : ({ s with fadeTimer := s.fadeTimer + dt } : AppState) = s1
  have hrs : s1.rouletteState = s.rouletteState := by rw [← hs1]
  by_cases ht : s1.rouletteNextAt ≤ now
  · cases hs : s1.rouletteState with
    | off =>
        rw [rouletteFrame_off now rh rm rs hs]
        exact Or.inl hrs
    | spin =>
        rw [rouletteFrame_spin now rh rm rs hs ht]
        exact Or.inl hrs
    | brake =>
        rw [rouletteFrame_brake now rh rm rs hs ht]
        split_ifs
        · exact Or.inr rfl
        · exact Or.inl hrs
  · rw [rouletteFrame_noTick now rh rm rs ht]
    exact Or.inl hrs

theorem frameStep_interval (now dt rh rm rs : ℚ) (s : AppState) :
    (frameStep now dt rh rm rs s).rouletteInterval = s.rouletteInterval ∨
    (frameStep now dt rh rm rs s).rouletteInterval = ROULETTE_FAST ∨
    (frameStep now dt rh rm rs s).rouletteInterval =
      s.rouletteInterval * ROULETTE_BRAKE_MULT := by
  unfold frameStep
  rw [(phaseFrame_other_fields _).2.1]
  generalize hs1 : ({ s with fadeTimer := s.fadeTimer + dt } : AppState) = s1
  have hri : s1.rouletteInterval = s.rouletteInterval := by rw [← hs1]
  by_cases ht : s1.rouletteNextAt ≤ now
  · cases hs : s1.rouletteState with
    | off =>
        rw [rouletteFrame_off now rh rm rs hs]
        exact Or.inl hri
    | spin =>
        rw [rouletteFrame_spin now rh rm rs hs ht]
        exact Or.inr (Or.inl rfl)
    | brake =>
        rw [rouletteFrame_brake now rh rm rs hs ht]
        split_ifs
        · exact Or.inr (Or.inr (by rw [← hri]; rfl))
        · exact Or.inr (Or.inr (by rw [← hri]))
  · rw [rouletteFrame_noTick now rh rm rs ht]
    exact Or.inl hri

/-- Invariant: the roulette interval never drops below the FAST constant. -/
theorem reachable_interval_ge {st : AppState} (h : Reachable st) :
    ROULETTE_FAST ≤ st.rouletteInterval := by
  induction h with
  | init => norm_num [initState, ROULETTE_FAST]
  | @key s1 ev now hr ih =>
      rcases keyPressed_interval ev now s1 with h1 | h1 <;> rw [h1]
      exact ih
  | @frame s1 now dt rh rm rs hr ih =>
      rcases frameStep_interval now dt rh rm rs s1 with h1 | h1 | h1 <;> rw [h1]
      · exact ih
      · unfold ROULETTE_FAST ROULETTE_BRAKE_MULT at *
        linarith

/-- Invariant: typing mode is only ever active while the roulette is OFF. -/
theorem reachable_typing_off {st : AppState} (h : Reachable st) :
    st.typingMode = true → st.rouletteState = .off := by
  induction h with
  | init => intro _; rfl
  | @key s1 ev now hr ih => exact keyPressed_typing_off ev now s1 ih
  | @frame s1 now dt rh rm rs hr ih =>
      rw [frameStep_typing]
      intro ht
      rcases frameStep_roulState now dt rh rm rs s1 with h1 | h1
      · rw [h1]
        exact ih ht
      · exact h1

/-! ## C2: the roulette state machine -/

/-- C2: toggling from OFF enters SPIN with the interval reset to the FAST
constant (90 ms) and a tick scheduled immediately (`nextAt = now`); every
tick in SPIN resets the interval to FAST; toggling from SPIN enters BRAKE;
each BRAKE tick multiplies the interval by the fixed factor 1.18 > 1 (so it
strictly increases, hence is non-decreasing throughout BRAKE) and once the
interval reaches the 950 ms stop threshold the state becomes OFF; OFF
frames schedule nothing and change nothing; every tick in a non-OFF state
sets a random manual time (mode MANUAL); and on every reachable state the
interval never drops below FAST. -/
theorem roulette_state_machine :
    (∀ (st : AppState) (now : ℚ), st.rouletteState = .off →
      (keyPressed (.ch 'z') now st).rouletteState = .spin ∧
      (keyPressed (.ch 'z') now st).rouletteInterval = 90 ∧
      (keyPressed (.ch 'z') now st).rouletteNextAt = now) ∧
    (∀ (st : AppState) (now : ℚ), st.rouletteState = .spin →
      (keyPressed (.ch 'z') now st).rouletteState = .brake ∧
      (keyPressed (.ch 'z') now st).rouletteNextAt = now + st.rouletteInterval ∧
      (keyPressed (.ch 'z') now st).rouletteInterval = st.rouletteInterval) ∧
    (∀ (st : AppState) (now dt rh rm rs : ℚ), st.rouletteState = .spin →
      st.rouletteNextAt ≤ now →
      (frameStep now dt rh rm rs st).rouletteState = .spin ∧
      (frameStep now dt rh rm rs st).rouletteInterval = 90 ∧
      (frameStep now dt rh rm rs st).rouletteNextAt = now + 90 ∧
      (frameStep now dt rh rm rs st).useLiveTime = false ∧
      (frameStep now dt rh rm rs st).manualH = clampInt ((⌊rh⌋ : ℤ) : ℚ) 0 23) ∧
    (∀ (st : AppState) (now dt rh rm rs : ℚ), st.rouletteState = .brake →
      st.rouletteNextAt ≤ now →
      (frameStep now dt rh rm rs st).rouletteInterval = st.rouletteInterval * (118 / 100) ∧
      (0 < st.rouletteInterval →
        st.rouletteInterval < (frameStep now dt rh rm rs st).rouletteInterval) ∧
      (950 ≤ st.rouletteInterval * (118 / 100) →
        (frameStep now dt rh rm rs st).rouletteState = .off) ∧
      (st.rouletteInterval * (118 / 100) < 950 →
        (frameStep now dt rh rm rs st).rouletteState = .brake) ∧
      (frameStep now dt rh rm rs st).rouletteNextAt = now + st.rouletteInterval * (118 / 100) ∧
      (frameStep now dt rh rm rs st).useLiveTime = false) ∧
    (∀ (st : AppState) (now dt rh rm rs : ℚ), st.rouletteState = .off →
      (frameStep now dt rh rm rs st).rouletteState = .off ∧
      (frameStep now dt rh rm rs st).rouletteInterval = st.rouletteInterval ∧
      (frameStep now dt rh rm rs st).rouletteNextAt = st.rouletteNextAt ∧
      (frameStep now dt rh rm rs st).manualH = st.manualH ∧
      (frameStep now dt rh rm rs st).manualM = st.manualM ∧
      (frameStep now dt rh rm rs st).manualS = st.manualS ∧
      (frameStep now dt rh rm rs st).useLiveTime = st.useLiveTime) ∧
    (∀ st : AppState, Reachable st → 90 ≤ st.rouletteInterval) := by
  refine ⟨?_, ?_, ?_, ?_, ?_, ?_⟩
  · intro st now h
    rw [keyPressed_z_off now h]
    exact ⟨rfl, rfl, rfl⟩
  · intro st now h
    rw [keyPressed_z_spin now h]
    exact ⟨rfl, rfl, rfl⟩
  · intro st now dt rh rm rs h1 h2
    unfold frameStep
    obtain ⟨p1, p2, p3, p4, _, _, p7, _, _⟩ :=
      phaseFrame_other_fields (rouletteFrame now rh rm rs { st with fadeTimer := st.fadeTimer + dt })
    rw [p1, p2, p3, p4, p7, @rouletteFrame_spin { st with fadeTimer := st.fadeTimer + dt } now rh rm rs h1 h2]
    exact ⟨h1, rfl, rfl, rfl, rfl⟩
  · intro st now dt rh rm rs h1 h2
    unfold frameStep
    obtain ⟨p1, p2, p3, _, _, _, p7, _, _⟩ :=
      phaseFrame_other_fields (rouletteFrame now rh rm rs { st with fadeTimer := st.fadeTimer + dt })
    rw [p1, p2, p3, p7, @rouletteFrame_brake { st with fadeTimer := st.fadeTimer + dt } now rh rm rs h1 h2]
    refine ⟨by split_ifs <;> rfl, ?_, ?_, ?_, by split_ifs <;> rfl, by split_ifs <;> rfl⟩
    · intro hpos
      split_ifs <;>
        · show st.rouletteInterval < st.rouletteInterval * (118 / 100)
          linarith
    · intro hc
      have hc2 : ROULETTE_SLOW_STOP ≤
          ({ st with fadeTimer := st.fadeTimer + dt } : AppState).rouletteInterval *
            ROULETTE_BRAKE_MULT := hc
      rw [if_pos hc2]
      rfl
    · intro hc
      have hc2 : ¬ROULETTE_SLOW_STOP ≤
          ({ st with fadeTimer := st.fadeTimer + dt } : AppState).rouletteInterval *
            ROULETTE_BRAKE_MULT := not_le.mpr hc
      rw [if_neg hc2]
      exact h1
  · intro st now dt rh rm rs h
    unfold frameStep
    obtain ⟨p1, p2, p3, p4, p5, p6, p7, _, _⟩ :=
      phaseFrame_other_fields (rouletteFrame now rh rm rs { st with fadeTimer := st.fadeTimer + dt })
    rw [p1, p2, p3, p4, p5, p6, p7, @rouletteFrame_off { st with fadeTimer := st.fadeTimer + dt } now rh rm rs h]
    exact ⟨h, rfl, rfl, rfl, rfl, rfl, rfl⟩
  · intro st h
    exact reachable_interval_ge h

/-- C2 witness: toggling the roulette on from the initial (OFF) state at
`millis() = 5`, one brake tick from a concrete BRAKE state, and the
interval invariant at the initial state. -/
theorem roulette_state_machine_witness :
    (keyPressed (.ch 'z') 5 initState).rouletteState = RoulS.spin ∧
    (keyPressed (.ch 'z') 5 initState).rouletteInterval = 90 ∧
    (keyPressed (.ch 'z') 5 initState).rouletteNextAt = 5 ∧
    (frameStep 10 1 (7 / 2) 20 30
      { initState with rouletteState := RoulS.brake, rouletteNextAt := 7 }).rouletteInterval =
      90 * (118 / 100) ∧
    90 ≤ initState.rouletteInterval := by
  obtain ⟨a1, a2, a3⟩ := roulette_state_machine.1 initState 5 rfl
  have hb := (roulette_state_machine.2.2.2.1
    { initState with rouletteState := RoulS.brake, rouletteNextAt := 7 } 10 1 (7 / 2) 20 30
    rfl (by norm_num [initState])).1
  exact ⟨a1, a2, a3, hb, roulette_state_machine.2.2.2.2.2 initState Reachable.init⟩

/-! ## C8: typing mode and roulette are mutually exclusive -/

/-- C8: in every state reachable through the key handlers (and frame
updates), time-entry typing mode and an active roulette (SPIN or BRAKE)
are never both on; starting the roulette from OFF clears the pending
time-entry buffer, exits typing mode and forces MANUAL (non-live) time;
and the typing key always stops the roulette. -/
theorem typing_roulette_exclusive :
    (∀ st : AppState, Reachable st → ¬(st.typingMode = true ∧ st.rouletteState ≠ RoulS.off)) ∧
    (∀ (st : AppState) (now : ℚ), st.rouletteState = RoulS.off →
      (keyPressed (.ch 'z') now st).rouletteState = RoulS.spin ∧
      (keyPressed (.ch 'z') now st).typingMode = false ∧
      (keyPressed (.ch 'z') now st).timeInput = [] ∧
      (keyPressed (.ch 'z') now st).useLiveTime = false) ∧
    (∀ (st : AppState) (now : ℚ), (keyPressed (.ch 't') now st).rouletteState = RoulS.off) := by
  refine ⟨?_, ?_, ?_⟩
  · intro st hr h
    exact h.2 (reachable_typing_off hr h.1)
  · intro st now h
    rw [keyPressed_z_off now h]
    exact ⟨rfl, rfl, rfl, rfl⟩
  · intro st now
    exact keyPressed_t_stops now

/-- C8 witness: the exclusivity invariant at the initial state, and the
roulette start from the initial (OFF) state at `millis() = 3`. -/
theorem typing_roulette_exclusive_witness :
    ¬(initState.typingMode = true ∧ initState.rouletteState ≠ RoulS.off) ∧
    (keyPressed (.ch 'z') 3 initState).rouletteState = RoulS.spin ∧
    (keyPressed (.ch 'z') 3 initState).typingMode = false ∧
    (keyPressed (.ch 'z') 3 initState).useLiveTime = false :=
  ⟨typing_roulette_exclusive.1 initState Reachable.init,
    (typing_roulette_exclusive.2.1 initState 3 rfl).1,
    (typing_roulette_exclusive.2.1 initState 3 rfl).2.1,
    (typing_roulette_exclusive.2.1 initState 3 rfl).2.2.2⟩

/-! ## C4: the hour marker lies at the proportional arclength -/

/-- C4: `hour12Float` is `(hour mod 12) + minuteFloat/60` and lies in
`[0, 12)` for in-range times; `aH` is `(H12 mod 12)/12` of the perimeter
(the sum of the four edge lengths); and the marker produced by the edge
walk is a point of the boundary, on some edge `k` at a fraction
`f ∈ [0, 1]`, whose accumulated arclength from vertex 0
(`cumLen k + f·len k`) is exactly that target arclength. -/
theorem hour_marker_at_arclength :
    (∀ (h : ℤ) (m s : ℝ), hour12Float h m s = ((h % 12 : ℤ) : ℝ) + (m + s / 60) / 60) ∧
    (∀ (h : ℤ) (m s : ℝ), 0 ≤ m → m ≤ 59 → 0 ≤ s → s < 60 →
      0 ≤ hour12Float h m s ∧ hour12Float h m s < 12) ∧
    (∀ (pts : Fin 4 → ℝ × ℝ) (H12 : ℝ), (∀ i, 0 < edgeLen pts i) → 0 ≤ H12 → H12 < 12 →
      aHOf pts H12 = H12 / 12 * perimOf pts ∧
      ∃ (k : Fin 4) (f : ℝ), 0 ≤ f ∧ f ≤ 1 ∧
        hourMarkerOf pts H12 = lerpP (pts k) (pts (k + 1)) f ∧
        cumLen pts k + f * edgeLen pts k = H12 / 12 * perimOf pts) := by
  refine ⟨fun h m s => rfl, ?_, ?_⟩
  · intro h m s hm0 hm1 hs0 hs1
    unfold hour12Float minuteFloat
    have h0 : (0 : ℤ) ≤ h % 12 := Int.emod_nonneg h (by norm_num)
    have h11 : h % 12 < 12 := Int.emod_lt_of_pos h (by norm_num)
    have hc0 : (0 : ℝ) ≤ ((h % 12 : ℤ) : ℝ) := by exact_mod_cast h0
    have hc11 : ((h % 12 : ℤ) : ℝ) ≤ 11 := by exact_mod_cast Int.lt_add_one_iff.mp h11
    have hsd : s / 60 < 1 := (div_lt_one (by norm_num)).mpr hs1
    have hsd0 : 0 ≤ s / 60 := div_nonneg hs0 (by norm_num)
    have hmd : (m + s / 60) / 60 < 1 := (div_lt_one (by norm_num)).mpr (by linarith)
    have hmd0 : 0 ≤ (m + s / 60) / 60 := div_nonneg (by linarith) (by norm_num)
    constructor <;> linarith
  · intro pts H12 hpos h0 h12
    have hp : 0 < perimOf pts := by
      have := hpos 0
      have := hpos 1
      have := hpos 2
      have := hpos 3
      unfold perimOf
      linarith
    have haH : aHOf pts H12 = H12 / 12 * perimOf pts := by
      unfold aHOf jsFmodR truncR p5mapR
      have h012 : 0 ≤ H12 / 12 := div_nonneg h0 (by norm_num)
      rw [if_pos h012]
      have hfl : ⌊H12 / 12⌋ = 0 :=
        Int.floor_eq_zero_iff.mpr ⟨h012, (div_lt_one (by norm_num)).mpr h12⟩
      rw [hfl]
      push_cast
      ring
    refine ⟨haH, ?_⟩
    have hs0 : 0 ≤ H12 / 12 * perimOf pts :=
      mul_nonneg (div_nonneg h0 (by norm_num)) hp.le
    have hslt : H12 / 12 * perimOf pts < perimOf pts := by
      have h1 : H12 / 12 < 1 := (div_lt_one (by norm_num)).mpr h12
      nlinarith
    unfold hourMarkerOf
    rw [haH]
    simp only [walkEdges]
    by_cases c0 : H12 / 12 * perimOf pts ≤ 0 + edgeLen pts 0
    · rw [if_pos c0]
      refine ⟨0, (H12 / 12 * perimOf pts - 0) / edgeLen pts 0, ?_, ?_, rfl, ?_⟩
      · exact div_nonneg (by linarith) (hpos 0).le
      · exact (div_le_one (hpos 0)).mpr (by linarith)
      · have hne : edgeLen pts 0 ≠ 0 := (hpos 0).ne'
        show (0 : ℝ) + (H12 / 12 * perimOf pts - 0) / edgeLen pts 0 * edgeLen pts 0 =
          H12 / 12 * perimOf pts
        rw [div_mul_cancel₀ _ hne]
        ring
    · rw [if_neg c0]
      by_cases c1 : H12 / 12 * perimOf pts ≤ 0 + edgeLen pts 0 + edgeLen pts 1
      · rw [if_pos c1]
        refine ⟨1, (H12 / 12 * perimOf pts - (0 + edgeLen pts 0)) / edgeLen pts 1,
          ?_, ?_, rfl, ?_⟩
        · exact div_nonneg (by push_neg at c0; linarith) (hpos 1).le
        · exact (div_le_one (hpos 1)).mpr (by linarith)
        · have hne : edgeLen pts 1 ≠ 0 := (hpos 1).ne'
          show edgeLen pts 0 +
              (H12 / 12 * perimOf pts - (0 + edgeLen pts 0)) / edgeLen pts 1 * edgeLen pts 1 =
            H12 / 12 * perimOf pts
          rw [div_mul_cancel₀ _ hne]
          ring
      · rw [if_neg c1]
        by_cases c2 : H12 / 12 * perimOf pts ≤
            0 + edgeLen pts 0 + edgeLen pts 1 + edgeLen pts 2
        · rw [if_pos c2]
          refine ⟨2,
            (H12 / 12 * perimOf pts - (0 + edgeLen pts 0 + edgeLen pts 1)) / edgeLen pts 2,
            ?_, ?_, rfl, ?_⟩
          · exact div_nonneg (by push_neg at c1; linarith) (hpos 2).le
          · exact (div_le_one (hpos 2)).mpr (by linarith)
          · have hne : edgeLen pts 2 ≠ 0 := (hpos 2).ne'
            show edgeLen pts 0 + edgeLen pts 1 +
                (H12 / 12 * perimOf pts - (0 + edgeLen pts 0 + edgeLen pts 1)) / edgeLen pts 2 *
                  edgeLen pts 2 =
              H12 / 12 * perimOf pts
            rw [div_mul_cancel₀ _ hne]
            ring
        · rw [if_neg c2]
          have c3 : H12 / 12 * perimOf pts ≤
              0 + edgeLen pts 0 + edgeLen pts 1 + edgeLen pts 2 + edgeLen pts 3 := by
            have : perimOf pts =
                edgeLen pts 0 + edgeLen pts 1 + edgeLen pts 2 + edgeLen pts 3 := rfl
            linarith
          rw [if_pos c3]
          refine ⟨3,
            (H12 / 12 * perimOf pts -
              (0 + edgeLen pts 0 + edgeLen pts 1 + edgeLen pts 2)) / edgeLen pts 3,
            ?_, ?_, rfl, ?_⟩
          · exact div_nonneg (by push_neg at c2; linarith) (hpos 3).le
          · exact (div_le_one (hpos 3)).mpr (by linarith)
          · have hne : edgeLen pts 3 ≠ 0 := (hpos 3).ne'
            show edgeLen pts 0 + edgeLen pts 1 + edgeLen pts 2 +
                (H12 / 12 * perimOf pts -
                  (0 + edgeLen pts 0 + edgeLen pts 1 + edgeLen pts 2)) / edgeLen pts 3 *
                  edgeLen pts 3 =
              H12 / 12 * perimOf pts
            rw [div_mul_cancel₀ _ hne]
            ring

/-- C4 witness: the marker characterization applied to a concrete unit
square and `hour12Float = 3`, with all edge lengths positive. -/
theorem hour_marker_at_arclength_witness :
    aHOf ![((0 : ℝ), (0 : ℝ)), (1, 0), (1, 1), (0, 1)] 3 =
      3 / 12 * perimOf ![((0 : ℝ), (0 : ℝ)), (1, 0), (1, 1), (0, 1)] ∧
    ∃ (k : Fin 4) (f : ℝ), 0 ≤ f ∧ f ≤ 1 ∧
      hourMarkerOf ![((0 : ℝ), (0 : ℝ)), (1, 0), (1, 1), (0, 1)] 3 =
        lerpP (![((0 : ℝ), (0 : ℝ)), (1, 0), (1, 1), (0, 1)] k)
          (![((0 : ℝ), (0 : ℝ)), (1, 0), (1, 1), (0, 1)] (k + 1)) f ∧
      cumLen ![((0 : ℝ), (0 : ℝ)), (1, 0), (1, 1), (0, 1)] k +
          f * edgeLen ![((0 : ℝ), (0 : ℝ)), (1, 0), (1, 1), (0, 1)] k =
        3 / 12 * perimOf ![((0 : ℝ), (0 : ℝ)), (1, 0), (1, 1), (0, 1)] := by
  refine hour_marker_at_arclength.2.2 _ 3 ?_ (by norm_num) (by norm_num)
  have d0 : (0 : ℝ) < edgeLen ![((0 : ℝ), (0 : ℝ)), (1, 0), (1, 1), (0, 1)] 0 := by
    show (0 : ℝ) < dist2 ((0 : ℝ), (0 : ℝ)) (1, 0)
    unfold dist2
    exact Real.sqrt_pos.mpr (by norm_num)
  have d1 : (0 : ℝ) < edgeLen ![((0 : ℝ), (0 : ℝ)), (1, 0), (1, 1), (0, 1)] 1 := by
    show (0 : ℝ) < dist2 ((1 : ℝ), (0 : ℝ)) (1, 1)
    unfold dist2
    exact Real.sqrt_pos.mpr (by norm_num)
  have d2 : (0 : ℝ) < edgeLen ![((0 : ℝ), (0 : ℝ)), (1, 0), (1, 1), (0, 1)] 2 := by
    show (0 : ℝ) < dist2 ((1 : ℝ), (1 : ℝ)) (0, 1)
    unfold dist2
    exact Real.sqrt_pos.mpr (by norm_num)
  have d3 : (0 : ℝ) < edgeLen ![((0 : ℝ), (0 : ℝ)), (1, 0), (1, 1), (0, 1)] 3 := by
    show (0 : ℝ) < dist2 ((0 : ℝ), (1 : ℝ)) (0, 0)
    unfold dist2
    exact Real.sqrt_pos.mpr (by norm_num)
  intro i
  fin_cases i
  · exact d0
  · exact d1
  · exact d2
  · exact d3

/-! ## C9: the three marker angles sum to 180 degrees -/

theorem mkE2_apply (x y : ℝ) (i : Fin 2) : mkE2 x y i = ![x, y] i := rfl

/-- `angleAtPoint` computes (in degrees) the standard Euclidean angle at
`P` between the segments to `A` and `B`: the clamp never changes the value
(Cauchy–Schwarz) and normalizing before the dot product is division by the
product of norms. -/
theorem angleAtPoint_eq_angle {P A B : E2} (hA : A ≠ P) (hB : B ≠ P) :
    angleAtPoint P A B = EuclideanGeometry.angle A P B * (180 / Real.pi) := by
  have hA' : A - P ≠ 0 := sub_ne_zero.mpr hA
  have hB' : B - P ≠ 0 := sub_ne_zero.mpr hB
  have hnA : ‖A - P‖ ≠ 0 := norm_ne_zero_iff.mpr hA'
  have hnB : ‖B - P‖ ≠ 0 := norm_ne_zero_iff.mpr hB'
  unfold angleAtPoint
  rw [if_neg (by push_neg; exact ⟨hnA, hnB⟩)]
  have hinner : (inner (‖A - P‖⁻¹ • (A - P)) (‖B - P‖⁻¹ • (B - P)) : ℝ) =
      (inner (A - P) (B - P) : ℝ) / (‖A - P‖ * ‖B - P‖) := by
    rw [real_inner_smul_left, real_inner_smul_right]
    field_simp
  rw [hinner]
  have hle := abs_real_inner_div_norm_mul_norm_le_one (A - P) (B - P)
  rw [abs_le] at hle
  unfold p5constrain
  rw [min_eq_left hle.2, max_eq_left hle.1]
  unfold EuclideanGeometry.angle InnerProductGeometry.angle
  rw [vsub_eq_sub, vsub_eq_sub]

/-- C9: for three pairwise-distinct, non-collinear points (nonzero cross
product, a non-degenerate triangle) the three angles computed by
`angleAtPoint` — at each marker toward the other two — sum to exactly 180
degrees, in particular within the 1e-3-degree tolerance. -/
theorem triangle_angles_sum (H M S : E2) (hHM : H ≠ M) (hMS : M ≠ S) (hSH : S ≠ H)
    (hreg : crossZ H M S ≠ 0) :
    angleAtPoint H S M + angleAtPoint M H S + angleAtPoint S H M = 180 ∧
    |angleAtPoint H S M + angleAtPoint M H S + angleAtPoint S H M - 180| ≤ 1 / 1000 := by
  have e1 : angleAtPoint H S M = EuclideanGeometry.angle S H M * (180 / Real.pi) :=
    angleAtPoint_eq_angle hSH (Ne.symm hHM)
  have e2 : angleAtPoint M H S = EuclideanGeometry.angle H M S * (180 / Real.pi) :=
    angleAtPoint_eq_angle hHM (Ne.symm hMS)
  have e3 : angleAtPoint S H M = EuclideanGeometry.angle H S M * (180 / Real.pi) :=
    angleAtPoint_eq_angle (Ne.symm hSH) hMS
  have hsum := EuclideanGeometry.angle_add_angle_add_angle_eq_pi (Ne.symm hSH) hMS
  have hcomm : EuclideanGeometry.angle M S H = EuclideanGeometry.angle H S M :=
    EuclideanGeometry.angle_comm M S H
  have h180 : angleAtPoint H S M + angleAtPoint M H S + angleAtPoint S H M = 180 := by
    rw [e1, e2, e3, ← hcomm]
    have : (EuclideanGeometry.angle S H M + EuclideanGeometry.angle H M S +
        EuclideanGeometry.angle M S H) * (180 / Real.pi) = Real.pi * (180 / Real.pi) := by
      rw [hsum]
    calc EuclideanGeometry.angle S H M * (180 / Real.pi) +
          EuclideanGeometry.angle H M S * (180 / Real.pi) +
          EuclideanGeometry.angle M S H * (180 / Real.pi)
        = (EuclideanGeometry.angle S H M + EuclideanGeometry.angle H M S +
            EuclideanGeometry.angle M S H) * (180 / Real.pi) := by ring
      _ = Real.pi * (180 / Real.pi) := this
      _ = 180 := by
          field_simp
  exact ⟨h180, by rw [h180]; norm_num⟩

/-- C9 witness: the right triangle `(0,0), (1,0), (0,1)`. -/
theorem triangle_angles_sum_witness :
    angleAtPoint (mkE2 0 0) (mkE2 0 1) (mkE2 1 0) +
      angleAtPoint (mkE2 1 0) (mkE2 0 0) (mkE2 0 1) +
      angleAtPoint (mkE2 0 1) (mkE2 0 0) (mkE2 1 0) = 180 := by
  have hHM : mkE2 0 0 ≠ mkE2 1 0 := by
    intro h
    have h0 := congrFun h 0
    rw [mkE2_apply, mkE2_apply] at h0
    simp [Matrix.cons_val_zero] at h0
  have hMS : mkE2 1 0 ≠ mkE2 0 1 := by
    intro h
    have h0 := congrFun h 0
    rw [mkE2_apply, mkE2_apply] at h0
    simp [Matrix.cons_val_zero] at h0
  have hSH : mkE2 0 1 ≠ mkE2 0 0 := by
    intro h
    have h0 := congrFun h 1
    rw [mkE2_apply, mkE2_apply] at h0
    simp [Matrix.cons_val_one, Matrix.head_cons] at h0
  have hreg : crossZ (mkE2 0 0) (mkE2 1 0) (mkE2 0 1) ≠ 0 := by
    unfold crossZ
    rw [mkE2_apply, mkE2_apply, mkE2_apply, mkE2_apply, mkE2_apply, mkE2_apply]
    norm_num
  exact (triangle_angles_sum (mkE2 0 0) (mkE2 1 0) (mkE2 0 1) hHM hMS hSH hreg).1

end MathOfTime
